import Mathlib

/-!
Verification development for the ClearView-Reader LLM response parsing and
reconstruction pipeline (`src/services/geminiService.ts`, first authoritative
variant: `fetchArticleContent` and `askQuestionAboutArticle`).

Strings are modelled as `List Char`.  The JavaScript regular expressions used
by the source are embedded as executable scanning functions with the same
semantics (leftmost match, lazy interior for the frontmatter block, multiline
anchors for the key lines and heading lines).  The generative-model platform
call (`ai.models.generateContent`) is abstracted as an oracle mapping the call
specification (model identifier and prompt contents) to either a response or a
thrown error; the embedding records which model identifiers were invoked so
that retry/fallback behaviour is visible in the trace.
-/

namespace ClearView

/-- JavaScript whitespace class (the ASCII part of `\s`), used by `.trim()`
and by the `\s*` / `\s+` parts of the source regular expressions. -/
def isWs (c : Char) : Bool :=
  c == ' ' || c == '\t' || c == '\n' || c == '\r' ||
  c == Char.ofNat 11 || c == Char.ofNat 12

/-- Model of JavaScript `String.prototype.trim` on the left. -/
def trimLeft (s : List Char) : List Char := s.dropWhile isWs

/-- Model of JavaScript `String.prototype.trim`: strip leading and trailing
whitespace. -/
def jsTrim (s : List Char) : List Char :=
  ((s.dropWhile isWs).reverse.dropWhile isWs).reverse

/-- Drop characters up to and including the next newline; used to advance a
multiline-anchored regex scan from one line start to the next. -/
def dropLine (s : List Char) : List Char :=
  match s with
  | [] => []
  | c :: cs => if c == '\n' then cs else dropLine cs

/-- Case-sensitive "starts with" on character lists. -/
def startsWithList (pre s : List Char) : Bool :=
  match pre, s with
  | [], _ => true
  | _ :: _, [] => false
  | p :: ps, c :: cs => p == c && startsWithList ps cs

/-- Case-insensitive "starts with", modelling the `i` flag of the metadata
key regular expression. -/
def startsWithCI (pre s : List Char) : Bool :=
  match pre, s with
  | [], _ => true
  | _ :: _, [] => false
  | p :: ps, c :: cs => p.toLower == c.toLower && startsWithCI ps cs

/-- Substring test, modelling `String.prototype.includes`. -/
def containsSub (needle s : List Char) : Bool :=
  match s with
  | [] => startsWithList needle []
  | _ :: cs => startsWithList needle s || containsSub needle cs

/-- Model of `String.prototype.replace(needle, "")` with a plain-string
needle: remove the first occurrence only. -/
def removeFirst (needle : List Char) (s : List Char) : List Char :=
  match s with
  | [] => []
  | c :: cs =>
    if startsWithList needle (c :: cs) then (c :: cs).drop needle.length
    else c :: removeFirst needle cs

/-- Does a `---` occur at the head of the list?  This is the literal `---`
part of the frontmatter regular expression `---([\s\S]*?)---([\s\S]*)`. -/
def startsWithTriple (s : List Char) : Bool :=
  match s with
  | a :: b :: c :: _ => a == '-' && b == '-' && c == '-'
  | _ => false

/-- Does `---` occur anywhere in the list? -/
def hasTriple (s : List Char) : Bool :=
  match s with
  | [] => false
  | _ :: cs => startsWithTriple s || hasTriple cs

/-- Lazy search for the closing `---`: the interior group `([\s\S]*?)` grows
until the earliest position at which the literal `---` matches; returns the
interior and the remainder after the closing delimiter. -/
def splitAtTriple (s : List Char) : Option (List Char × List Char) :=
  match s with
  | [] => none
  | c :: cs =>
    if startsWithTriple (c :: cs) then some ([], cs.drop 2)
    else
      match splitAtTriple cs with
      | some (a, b) => some (c :: a, b)
      | none => none

/-- Embedding of the source's unanchored frontmatter match on `responseText`
against `---([\s\S]*?)---([\s\S]*)` (geminiService.ts line 81): the match
is unanchored, so the engine tries successive start positions; at the first
position where a literal `---` is followed (lazily) by another `---`, group 1
is the interior between the delimiters and group 2 greedily takes the whole
remainder. -/
def matchTripleBlock (s : List Char) : Option (List Char × List Char) :=
  match s with
  | [] => none
  | c :: cs =>
    if startsWithTriple (c :: cs) then
      match splitAtTriple (cs.drop 2) with
      | some (i, r) => some (i, r)
      | none => matchTripleBlock cs
    else matchTripleBlock cs

/-- After a key (or `#`) has matched, the regex consumes `\s*` greedily (this
can cross newlines) and captures `(.*)` up to the end of the line. -/
def takeLineValue (rest : List Char) : List Char :=
  (rest.dropWhile isWs).takeWhile (fun c => c != '\n')

/-- Fuel-indexed scan over line starts for `new RegExp("^key:\\s*(.*)$", "mi")`:
at each line start, if the line begins (case-insensitively) with the needle
`key:`, capture the value; otherwise move to the next line start. -/
def getMetaAux (needle : List Char) : Nat → List Char → Option (List Char)
  | 0, _ => none
  | _ + 1, [] => none
  | fuel + 1, c :: cs =>
    if startsWithCI needle (c :: cs) then
      some (takeLineValue ((c :: cs).drop needle.length))
    else getMetaAux needle fuel (dropLine (c :: cs))

/-- Embedding of the source helper `getMeta` (geminiService.ts lines 92-96):
match `^key:\s*(.*)$` with flags `mi` against the metadata block and return
the trimmed captured value, or `none` when there is no match. -/
def getMeta (metadataStr : List Char) (key : String) : Option (List Char) :=
  (getMetaAux (key.toList ++ [':']) (metadataStr.length + 1) metadataStr).map jsTrim

/-- JavaScript `||` on an optional string value: `null` and the empty string
both fall through to the default. -/
def jsOrElse (v : Option (List Char)) (dflt : List Char) : List Char :=
  match v with
  | none => dflt
  | some s => if s.isEmpty then dflt else s

/-- A double or single quote character (the class `["']`). -/
def isQuote (c : Char) : Bool := c == '"' || c == Char.ofNat 39

/-- Embedding of `.replace(/^["']|["']$/g, "")`: remove one leading and one
trailing quote character. -/
def stripQuotes (s : List Char) : List Char :=
  let s1 := match s with
    | [] => []
    | c :: cs => if isQuote c then cs else c :: cs
  match s1.reverse with
  | [] => s1
  | c :: cs => if isQuote c then cs.reverse else s1

/-- Fuel-indexed scan for `content.match(/^#\s+(.*)$/m)`: at each line start,
a literal `#` followed by at least one whitespace character captures the rest
of the line (after greedy `\s+`, which may cross newlines). -/
def h1ScanAux : Nat → List Char → Option (List Char)
  | 0, _ => none
  | _ + 1, [] => none
  | fuel + 1, c :: cs =>
    if c == '#' then
      match cs with
      | d :: rest =>
        if isWs d then some (((d :: rest).dropWhile isWs).takeWhile (fun x => x != '\n'))
        else h1ScanAux fuel (dropLine (c :: cs))
      | [] => h1ScanAux fuel (dropLine (c :: cs))
    else h1ScanAux fuel (dropLine (c :: cs))

/-- First level-1 markdown heading capture in the content, per the source
regex `/^#\s+(.*)$/m` (note: a `##` line does not match, since the character
after the first `#` must be whitespace). -/
def h1Scan (s : List Char) : Option (List Char) :=
  h1ScanAux (s.length + 1) s

/-- Model of the platform URL parser: `new URL(url).hostname` for plain
scheme-qualified http(s) URLs.  The hostname is everything after the scheme up
to the first `/`, `:`, `?` or `#`, lowercased; inputs without an http(s)
scheme yield `none`, modelling the constructor throwing. -/
def urlHostname (url : List Char) : Option (List Char) :=
  if startsWithList ("https://".toList) url then
    some (((url.drop 8).takeWhile
      (fun c => !(c == '/' || c == ':' || c == '?' || c == '#'))).map Char.toLower)
  else if startsWithList ("http://".toList) url then
    some (((url.drop 7).takeWhile
      (fun c => !(c == '/' || c == ':' || c == '?' || c == '#'))).map Char.toLower)
  else none

/-- The guard of the robust title fallback (geminiService.ts line 104):
`!title || title.toLowerCase().includes("article view") || title.length < 5`. -/
def titleNeedsFallback (title : List Char) : Bool :=
  title.isEmpty ||
  containsSub ("article view".toList) (title.map Char.toLower) ||
  decide (title.length < 5)

/-- The robust title fallback chain (geminiService.ts lines 104-117): when the
extracted title is unusable, use the first `#` heading of the content; else
derive `Report from <hostname with first "www." removed>`; else, when the URL
cannot be parsed, the literal `Extracted Article`. -/
def deriveTitle (title content url : List Char) : List Char :=
  if titleNeedsFallback title then
    match h1Scan content with
    | some v => jsTrim v
    | none =>
      match urlHostname url with
      | some host => ("Report from ".toList) ++ removeFirst ("www.".toList) host
      | none => "Extracted Article".toList
  else title

/-- Final title cleanup (geminiService.ts line 119):
`title.replace(/[*_#]/g, "").trim()`. -/
def sanitizeTitle (t : List Char) : List Char :=
  jsTrim (t.filter (fun c => !(c == '*' || c == '_' || c == '#')))

/-- The four textual fields produced by the frontmatter parsing step
(geminiService.ts lines 81-101), before the title fallback chain runs. -/
structure ParsedFields where
  title : List Char
  author : List Char
  siteName : List Char
  content : List Char
deriving DecidableEq

/-- Embedding of geminiService.ts lines 81-101: match the frontmatter block;
on a match, the interior provides the metadata (each value defaulted through
`||` and then quote-stripped) and the trimmed remainder becomes the content;
otherwise the whole response text is the content and the defaults stand. -/
def parseFrontmatter (responseText : List Char) : ParsedFields :=
  match matchTripleBlock responseText with
  | none =>
    { title := []
      author := "Unknown".toList
      siteName := "Web".toList
      content := responseText }
  | some (metadataStr, rest) =>
    { title := stripQuotes (jsOrElse (getMeta metadataStr "title") [])
      author := stripQuotes (jsOrElse (getMeta metadataStr "author") ("Unknown".toList))
      siteName := stripQuotes (jsOrElse (getMeta metadataStr "siteName") ("Web".toList))
      content := jsTrim rest }

/-- A grounding citation web payload (`chunk.web`), carrying a title and uri
(possibly empty, modelling absent fields). -/
structure WebPayload where
  title : List Char
  uri : List Char
deriving DecidableEq

/-- A raw grounding citation entry; `web := none` models a chunk without a
web-type payload. -/
structure GroundingChunk where
  web : Option WebPayload
deriving DecidableEq

/-- One entry of the returned `sources` list. -/
structure SourceRef where
  title : List Char
  uri : List Char
deriving DecidableEq

/-- The `ArticleData` record returned by `fetchArticleContent`
(src/types via geminiService.ts lines 125-132). -/
structure ArticleData where
  title : List Char
  content : List Char
  author : List Char
  siteName : List Char
  url : List Char
  sources : List SourceRef
deriving DecidableEq

/-- Embedding of geminiService.ts lines 121-123: map each grounding chunk
with a web payload to its title/uri pair, drop the rest, keep the order;
a missing chunk list (optional chaining) yields the empty list. -/
def extractSources (chunks : Option (List GroundingChunk)) : List SourceRef :=
  match chunks with
  | none => []
  | some cs => cs.filterMap (fun c => c.web.map (fun w => ⟨w.title, w.uri⟩))

/-- The full pure response-to-record pipeline of `fetchArticleContent`
(geminiService.ts lines 81-132): frontmatter parsing, title fallback chain,
title sanitization, source extraction, URL echoed. -/
def articleFrom (responseText url : List Char) (chunks : Option (List GroundingChunk)) :
    ArticleData :=
  let f := parseFrontmatter responseText
  { title := sanitizeTitle (deriveTitle f.title f.content url)
    content := f.content
    author := f.author
    siteName := f.siteName
    url := url
    sources := extractSources chunks }

/-- Finish/completion status signalled by the platform alongside a response.
The source never inspects this field; it is carried in the model so that the
independence of the implementation from it can be stated. -/
inductive FinishStatus where
  | STOP
  | SAFETY
  | RECITATION
  | OTHER
deriving DecidableEq

/-- A normalized platform response: the primary `text` field (empty models a
missing value), the candidate parts' text fields (`none` models absent
candidates or parts), the signalled finish status, and the grounding chunks
(`none` models absent grounding metadata). -/
structure GenResponse where
  text : List Char
  parts : Option (List (List Char))
  finishStatus : FinishStatus
  chunks : Option (List GroundingChunk)
deriving DecidableEq

/-- What a single `ai.models.generateContent` call sends: the model identifier
and the prompt contents.  The tool configuration is fixed at each call site in
the source and carries no information the claims depend on. -/
structure CallSpec where
  model : List Char
  contents : List Char
deriving DecidableEq

/-- Outcome of one platform call: a response, or a thrown error carrying a
message (an empty message models an error without a usable `.message`). -/
inductive CallResult where
  | ok (r : GenResponse)
  | err (msg : List Char)

/-- The model identifier used by `fetchArticleContent`
(geminiService.ts line 13). -/
def modelId : List Char := "gemini-3-pro-preview".toList

/-- The model identifier used by `askQuestionAboutArticle`
(geminiService.ts line 146). -/
def askModelId : List Char := "gemini-3-flash-preview".toList

/-- The retrieval prompt template of geminiService.ts lines 15-51, with the
target URL interpolated at its three occurrences. -/
def fetchPrompt (url : List Char) : List Char :=
  ("\n    ROLE: You are an elite Investigative Content Extraction Specialist.\n    GOAL: Reconstruct the ABSOLUTE FULL article at the provided URL, bypassing strict paywalls (e.g., NYT, The Information, WSJ, Bloomberg).\n    \n    TARGET URL: ").toList ++ url ++
  ("\n\n    **STRICT BYPASS & RECONSTRUCTION PROTOCOL:**\n    1. DEEP SEARCH: The target URL is likely paywalled. Do NOT rely solely on the content from the target URL. \n    2. MULTI-SOURCE SYNTHESIS: Use Google Search to find the FULL text. Search for the article\x27s headline and author. Look for:\n       - Syndicated versions on other platforms (e.g., Yahoo, Substack, News aggregators).\n       - Archive snapshots (Archive.is, Wayback Machine).\n       - Detailed snippets and quotes across multiple search results.\n    3. NO TRUNCATION: If the article is 2000 words, reconstruct all 2000 words. Do NOT summarize. Do NOT stop halfway. \n    4. STITCHING: If you find fragments of the article in different places, stitch them together into a single, continuous, logical narrative.\n    5. QUALITY CHECK: Ensure the text ends with a natural conclusion (e.g., \"END\", or an author bio). If it feels cut off, find more search results to complete it.\n\n    **MANDATORY OUTPUT FORMAT:**\n    You MUST output a YAML frontmatter block followed by the article content in Markdown.\n    \n    ---\n    title: [Exact Original Article Headline]\n    author: [Author Name]\n    siteName: [Publication Name]\n    ---\n\n    Source: [Original Article](").toList ++ url ++
  (")\n\n    ![Feature Image Description](Direct_Public_Image_URL)\n\n    [Full Reconstructed Article Body in Markdown with subheaders and inline images]\n\n    **STRICT RULES:**\n    - The \"title\" in frontmatter must be the exact original headline.\n    - The first line of the body MUST be: \"Source: [Title](").toList ++ url ++
  (")\".\n    - Use actual high-resolution image URLs found via search.\n    - Start immediately with \x27---\x27. No preamble.\n  ").toList

/-- The question prompt template of geminiService.ts lines 147-154, with the
article content truncated to 30000 characters (`substring(0, 30000)`). -/
def askPrompt (articleContent question : List Char) : List Char :=
  ("\n                Context: The following is the content of an article:\n                ---\n                ").toList ++ articleContent.take 30000 ++
  (" \n                ---\n                User Question: ").toList ++ question ++
  ("\n                Answer strictly based on the provided text.\n            ").toList

/-- Text extraction from a response (geminiService.ts lines 64-74):
`response.text || ""`, then, when empty and candidates are present, the
concatenation of the candidate parts' truthy text fields. -/
def extractText (r : GenResponse) : List Char :=
  if r.text.isEmpty then
    match r.parts with
    | some ps => (ps.filter (fun p => !p.isEmpty)).flatten
    | none => []
  else r.text

/-- The message of the error rethrown by the catch block
(geminiService.ts line 136): `error.message || <fixed default>`. -/
def jsErrorMessage (m : List Char) : List Char :=
  if m.isEmpty then
    ("Failed to reconstruct the full article. This source is highly protected.").toList
  else m

/-- The error message thrown when no usable text was obtained
(geminiService.ts line 77). -/
def noContentMsg : List Char :=
  ("No content received. The paywall may be extremely restrictive.").toList

instance : DecidableEq (Except (List Char) ArticleData) := fun a b =>
  match a, b with
  | .error x, .error y =>
    if h : x = y then .isTrue (by rw [h]) else .isFalse (by simp [h])
  | .error _, .ok _ => .isFalse (by simp)
  | .ok _, .error _ => .isFalse (by simp)
  | .ok x, .ok y =>
    if h : x = y then .isTrue (by rw [h]) else .isFalse (by simp [h])

/-- The observable outcome of one `fetchArticleContent` invocation: the
result (the returned record, or the thrown error's message) together with the
model identifiers of the platform calls that were issued, in order. -/
structure FetchTrace where
  result : Except (List Char) ArticleData
  modelsCalled : List (List Char)
deriving DecidableEq

/-- Embedding of `fetchArticleContent` (geminiService.ts lines 11-138) over a
platform oracle.  The source issues a single `generateContent` call with the
Pro model; a thrown error reaches the catch block and is rethrown with its
message (or the fixed default); a successful response with no extractable
text raises the no-content error through the same catch block; otherwise the
response is parsed into the returned record. -/
def fetchArticleContent (oracle : CallSpec → CallResult) (url : List Char) :
    FetchTrace :=
  match oracle ⟨modelId, fetchPrompt url⟩ with
  | .err m => ⟨.error (jsErrorMessage m), [modelId]⟩
  | .ok r =>
    let responseText := extractText r
    if responseText.isEmpty then ⟨.error (jsErrorMessage noContentMsg), [modelId]⟩
    else ⟨.ok (articleFrom responseText url r.chunks), [modelId]⟩

/-- Embedding of `askQuestionAboutArticle` (geminiService.ts lines 143-160)
over a platform oracle: one Flash-model call; on success
`response.text || "No response generated."`; any thrown error is swallowed
into the fixed fallback string. -/
def askQuestionAboutArticle (oracle : CallSpec → CallResult)
    (articleContent question : List Char) : List Char :=
  match oracle ⟨askModelId, askPrompt articleContent question⟩ with
  | .ok r => if r.text.isEmpty then ("No response generated.").toList else r.text
  | .err _ => ("Error querying article.").toList

/-! Concrete inputs used by counterexamples and witnesses. -/

/-- The example URL named by the claims. -/
def urlEx : List Char := "https://example.com/some-cool-article".toList

/-- A blockless, headingless response text. -/
def plainTextEx : List Char := "Just some plain text about the topic at hand.".toList

/-- A blockless response whose first heading is level 2. -/
def text6 : List Char := "## Second Level Heading\nSome body text.".toList

/-- A blockless response whose first heading is level 1. -/
def text6b : List Char := "# Proper Top Heading\nBody of the piece.".toList

/-- The exact round-trip input text of claim C8. -/
def text8 : List Char :=
  "---\ntitle: Foo\nauthor: Bar\nsiteName: Baz\n---\nBody text here".toList

/-- The C8 input with a title long enough to survive the minimum-length
check. -/
def text8b : List Char :=
  "---\ntitle: Foobar\nauthor: Bar\nsiteName: Baz\n---\nBody text here".toList

/-- A frontmatter block whose author value is a pair of quote characters. -/
def text4 : List Char :=
  ("---\nauthor: \"\"\ntitle: The Quoted Author Case\n---\nBody.").toList

/-- A metadata interior without dashes. -/
def metaEx : List Char := "\ntitle: A Long Enough Title\n".toList

/-- A body containing a markdown horizontal rule. -/
def bodyEx : List Char := "\nIntro.\n\n---\n\nAfter the rule.".toList

/-- Conversational text preceding the first delimiter. -/
def preEx : List Char := "Sure! Here is the article.\n".toList

/-- Metadata interior for the prefixed-block example. -/
def metaEx10 : List Char := "\ntitle: Prefixed Case Headline\n".toList

/-- Body for the prefixed-block example. -/
def bodyEx10 : List Char := "\nThe body of the prefixed case.".toList

/-- The triple-dash delimiter. -/
def tdash : List Char := ['-', '-', '-']

/-- Two dashes: appended to a list, it covers every window in which an
occurrence of `---` could straddle the boundary with a following delimiter. -/
def ddash : List Char := ['-', '-']

/-- An oracle whose calls always fail with a fixed message. -/
def oracleFail : CallSpec → CallResult :=
  fun _ => .err ("Primary model unavailable".toList)

/-- A response whose finish status is RECITATION and whose text parses
normally. -/
def respRec : GenResponse :=
  { text := "---\ntitle: Recitation Case Title\n---\nBody after the block.".toList
    parts := none
    finishStatus := .RECITATION
    chunks := none }

/-! Supporting lemmas about the frontmatter matcher. -/

theorem startsWithTriple_append (l r : List Char) (h : 3 ≤ l.length) :
    startsWithTriple (l ++ r) = startsWithTriple l := by
  cases l with
  | nil => simp at h
  | cons a l1 =>
    cases l1 with
    | nil => simp at h
    | cons b l2 =>
      cases l2 with
      | nil => simp at h
      | cons c t => rfl

theorem hasTriple_cons_false {c : Char} {cs : List Char}
    (h : hasTriple (c :: cs) = false) :
    startsWithTriple (c :: cs) = false ∧ hasTriple cs = false := by
  have e : hasTriple (c :: cs) = (startsWithTriple (c :: cs) || hasTriple cs) := rfl
  rw [e] at h
  exact ⟨by cases hs : startsWithTriple (c :: cs) <;> simp [hs] at h ⊢,
         by cases ht : hasTriple cs <;> simp [ht] at h ⊢⟩

theorem triple_boundary_eq (c : Char) (cs body : List Char) :
    c :: (cs ++ (tdash ++ body)) = (c :: (cs ++ ddash)) ++ ('-' :: body) := by
  simp [tdash, ddash]

theorem splitAtTriple_exact (meta body : List Char)
    (h : hasTriple (meta ++ ddash) = false) :
    splitAtTriple (meta ++ (tdash ++ body)) = some (meta, body) := by
  induction meta with
  | nil => rfl
  | cons c cs ih =>
    have hp := @hasTriple_cons_false c (cs ++ ddash) (by simpa using h)
    have hsw : startsWithTriple (c :: (cs ++ (tdash ++ body))) = false := by
      rw [triple_boundary_eq, startsWithTriple_append _ _ (by simp [ddash])]
      exact hp.1
    show splitAtTriple (c :: (cs ++ (tdash ++ body))) = some (c :: cs, body)
    rw [splitAtTriple, hsw]
    simp [ih hp.2]

theorem matchTripleBlock_exact (pre meta body : List Char)
    (hp : hasTriple (pre ++ ddash) = false)
    (hm : hasTriple (meta ++ ddash) = false) :
    matchTripleBlock (pre ++ (tdash ++ (meta ++ (tdash ++ body)))) = some (meta, body) := by
  induction pre with
  | nil =>
    show matchTripleBlock ('-' :: '-' :: '-' :: (meta ++ (tdash ++ body))) = some (meta, body)
    rw [matchTripleBlock]
    simp only [show startsWithTriple ('-' :: '-' :: '-' :: (meta ++ (tdash ++ body))) = true from rfl]
    simp [splitAtTriple_exact meta body hm]
  | cons c cs ih =>
    have hq := @hasTriple_cons_false c (cs ++ ddash) (by simpa using hp)
    have hsw : startsWithTriple (c :: (cs ++ (tdash ++ (meta ++ (tdash ++ body))))) = false := by
      rw [triple_boundary_eq, startsWithTriple_append _ _ (by simp [ddash])]
      exact hq.1
    show matchTripleBlock (c :: (cs ++ (tdash ++ (meta ++ (tdash ++ body))))) = some (meta, body)
    rw [matchTripleBlock, hsw]
    simpa using ih hq.2

theorem parseFrontmatter_none (t : List Char) (h : matchTripleBlock t = none) :
    parseFrontmatter t = ⟨[], "Unknown".toList, "Web".toList, t⟩ := by
  unfold parseFrontmatter
  rw [h]

theorem parseFrontmatter_some (t m r : List Char) (h : matchTripleBlock t = some (m, r)) :
    parseFrontmatter t =
      ⟨stripQuotes (jsOrElse (getMeta m "title") []),
       stripQuotes (jsOrElse (getMeta m "author") ("Unknown".toList)),
       stripQuotes (jsOrElse (getMeta m "siteName") ("Web".toList)),
       jsTrim r⟩ := by
  unfold parseFrontmatter
  rw [h]

theorem articleFrom_title (t url : List Char) (ch : Option (List GroundingChunk)) :
    (articleFrom t url ch).title =
      sanitizeTitle (deriveTitle (parseFrontmatter t).title (parseFrontmatter t).content url) :=
  rfl

theorem deriveTitle_empty_h1 (content url v : List Char) (h : h1Scan content = some v) :
    deriveTitle [] content url = jsTrim v := by
  simp [deriveTitle, titleNeedsFallback, h]

theorem deriveTitle_empty_url (content url host : List Char)
    (h1 : h1Scan content = none) (h2 : urlHostname url = some host) :
    deriveTitle [] content url =
      ("Report from ".toList) ++ removeFirst ("www.".toList) host := by
  simp [deriveTitle, titleNeedsFallback, h1, h2]

theorem deriveTitle_empty_fixed (content url : List Char)
    (h1 : h1Scan content = none) (h2 : urlHostname url = none) :
    deriveTitle [] content url = "Extracted Article".toList := by
  simp [deriveTitle, titleNeedsFallback, h1, h2]

theorem jsOrElse_spec (o : Option (List Char)) (d : List Char) :
    jsOrElse o d = d ∨ ∃ v, o = some v ∧ v ≠ [] ∧ jsOrElse o d = v := by
  cases o with
  | none => exact Or.inl rfl
  | some v =>
    cases hv : v.isEmpty with
    | true =>
      left
      simp [jsOrElse, hv]
    | false =>
      right
      exact ⟨v, rfl, by simpa using hv, by simp [jsOrElse, hv]⟩

/-! Claim theorems. -/

/-- C1 counterexample: when the primary model call fails, no additional
fallback call to a secondary model identifier is made — the trace contains
exactly the single primary-model call (so its length is 1, not 2) and
`fetchArticleContent` fails immediately with the propagated message. -/
theorem c1_counterexample :
    (fetchArticleContent oracleFail urlEx).modelsCalled = [modelId] ∧
    (fetchArticleContent oracleFail urlEx).modelsCalled.length = 1 ∧
    (fetchArticleContent oracleFail urlEx).modelsCalled.length ≠ 2 ∧
    (fetchArticleContent oracleFail urlEx).result
      = .error ("Primary model unavailable".toList) := by
  refine ⟨rfl, rfl, by decide, rfl⟩

/-- C1 amended: for every article fetch in which the primary model call
fails, no fallback call is made at all — the single primary call is the only
platform call, and `fetchArticleContent` fails immediately with the thrown
error's message (or the fixed default message when that is empty). -/
theorem c1_amended (oracle : CallSpec → CallResult) (url m : List Char)
    (h : oracle ⟨modelId, fetchPrompt url⟩ = .err m) :
    (fetchArticleContent oracle url).result = .error (jsErrorMessage m) ∧
    (fetchArticleContent oracle url).modelsCalled = [modelId] := by
  unfold fetchArticleContent
  rw [h]
  exact ⟨rfl, rfl⟩

/-- C1 witness: the amended statement evaluated at a concrete failing
oracle. -/
theorem c1_amended_witness :
    oracleFail ⟨modelId, fetchPrompt urlEx⟩ = .err ("Primary model unavailable".toList) ∧
    (fetchArticleContent oracleFail urlEx).result
      = .error (jsErrorMessage ("Primary model unavailable".toList)) ∧
    (fetchArticleContent oracleFail urlEx).modelsCalled = [modelId] :=
  ⟨rfl, (c1_amended oracleFail urlEx _ rfl).1, (c1_amended oracleFail urlEx _ rfl).2⟩

/-- C2 counterexample: an invocation whose response carries finish status
RECITATION triggers no additional retry — exactly one call is made (not two)
and the response text is parsed into a normal success, not a copyright
block. -/
theorem c2_counterexample :
    respRec.finishStatus = FinishStatus.RECITATION ∧
    (fetchArticleContent (fun _ => .ok respRec) urlEx).modelsCalled.length = 1 ∧
    (fetchArticleContent (fun _ => .ok respRec) urlEx).modelsCalled.length ≠ 2 ∧
    (fetchArticleContent (fun _ => .ok respRec) urlEx).result
      = .ok (articleFrom respRec.text urlEx none) := by
  refine ⟨rfl, rfl, by decide, rfl⟩

/-- C2 amended: the finish status is never inspected: exactly one platform
call is made per fetch, and the outcome is identical under any two finish
statuses of the same response — in particular no paraphrase retry ever
occurs on RECITATION. -/
theorem c2_amended (oracle : CallSpec → CallResult) (r : GenResponse)
    (url : List Char) (s1 s2 : FinishStatus) :
    (fetchArticleContent oracle url).modelsCalled = [modelId] ∧
    fetchArticleContent (fun _ => .ok { r with finishStatus := s1 }) url
      = fetchArticleContent (fun _ => .ok { r with finishStatus := s2 }) url := by
  constructor
  · unfold fetchArticleContent
    cases oracle ⟨modelId, fetchPrompt url⟩ with
    | err m => rfl
    | ok r0 =>
      by_cases he : (extractText r0).isEmpty <;> simp [he]
  · rfl

/-- C3 counterexample: for a blockless, headingless response text and the
URL `https://example.com/some-cool-article`, the derived title is
`Report from example.com` — not `Some cool article` as the claim states
(the path segment is never consulted). -/
theorem c3_counterexample :
    (articleFrom plainTextEx urlEx none).title = "Report from example.com".toList ∧
    (articleFrom plainTextEx urlEx none).title ≠ "Some cool article".toList := by
  refine ⟨by decide, by decide⟩

/-- C3 amended: for every response text with no structured block and no
level-1 markdown heading, the title is derived from the URL as the literal
`Report from ` followed by the hostname with the first occurrence of `www.`
removed; the path is ignored entirely.  (For the claim's example URL this
yields `Report from example.com`.) -/
theorem c3_amended (text url host : List Char) (ch : Option (List GroundingChunk))
    (h0 : matchTripleBlock text = none) (h1 : h1Scan text = none)
    (h2 : urlHostname url = some host) :
    (articleFrom text url ch).title =
      sanitizeTitle (("Report from ".toList) ++ removeFirst ("www.".toList) host) := by
  rw [articleFrom_title, parseFrontmatter_none text h0]
  dsimp only
  rw [deriveTitle_empty_url text url host h1 h2]

/-- C3 witness: the amended statement at the claim's example URL. -/
theorem c3_amended_witness :
    matchTripleBlock plainTextEx = none ∧ h1Scan plainTextEx = none ∧
    urlHostname urlEx = some ("example.com".toList) ∧
    (articleFrom plainTextEx urlEx none).title = "Report from example.com".toList :=
  ⟨by decide, by decide, by decide,
   (c3_amended plainTextEx urlEx ("example.com".toList) none
     (by decide) (by decide) (by decide)).trans (by decide)⟩

/-- C4 counterexample: a structured block that sets the author to a pair of
quote characters yields an empty author string in the returned record — the
author field is not always non-empty. -/
theorem c4_counterexample :
    (articleFrom text4 urlEx none).author = [] ∧
    (articleFrom text4 urlEx none).siteName = "Web".toList := by
  refine ⟨by decide, by decide⟩

/-- C4 amended: whenever the structured block leaves the author or siteName
unset (no key line, or an empty value), the field equals exactly the
sentinel `Unknown` resp. `Web`; when a non-empty value is supplied, the
quote-stripped value is used — which can itself be empty, so the fields are
not non-empty in general. -/
theorem c4_amended (text url : List Char) (ch : Option (List GroundingChunk)) :
    ((articleFrom text url ch).author = "Unknown".toList ∨
      ∃ m r v, matchTripleBlock text = some (m, r) ∧ getMeta m "author" = some v ∧
        v ≠ [] ∧ (articleFrom text url ch).author = stripQuotes v) ∧
    ((articleFrom text url ch).siteName = "Web".toList ∨
      ∃ m r v, matchTripleBlock text = some (m, r) ∧ getMeta m "siteName" = some v ∧
        v ≠ [] ∧ (articleFrom text url ch).siteName = stripQuotes v) := by
  have ea : (articleFrom text url ch).author = (parseFrontmatter text).author := rfl
  have es : (articleFrom text url ch).siteName = (parseFrontmatter text).siteName := rfl
  rw [ea, es]
  cases hm : matchTripleBlock text with
  | none =>
    rw [parseFrontmatter_none text hm]
    exact ⟨Or.inl rfl, Or.inl rfl⟩
  | some p =>
    obtain ⟨m, r⟩ := p
    rw [parseFrontmatter_some text m r hm]
    constructor
    · rcases jsOrElse_spec (getMeta m "author") ("Unknown".toList) with hd | ⟨v, hv, hne, he⟩
      · left
        dsimp only
        rw [hd]
        decide
      · right
        exact ⟨m, r, v, rfl, hv, hne, by dsimp only; rw [he]⟩
    · rcases jsOrElse_spec (getMeta m "siteName") ("Web".toList) with hd | ⟨v, hv, hne, he⟩
      · left
        dsimp only
        rw [hd]
        decide
      · right
        exact ⟨m, r, v, rfl, hv, hne, by dsimp only; rw [he]⟩

/-- C5: for every response consisting of a delimited metadata block (an
interior that contains no delimiter, also not straddling its closing
delimiter) followed by an arbitrary body, the returned content is exactly
the body trimmed of surrounding whitespace — the block is fully stripped,
and triple-dash sequences occurring later in the body remain in the content
(the lazy interior closes at the first delimiter; the remainder is taken
greedily). -/
theorem c5_content_strips_block (meta body url : List Char)
    (ch : Option (List GroundingChunk))
    (h : hasTriple (meta ++ ddash) = false) :
    (articleFrom (tdash ++ (meta ++ (tdash ++ body))) url ch).content = jsTrim body := by
  have hb : matchTripleBlock (tdash ++ (meta ++ (tdash ++ body))) = some (meta, body) := by
    simpa using matchTripleBlock_exact [] meta body (by decide) h
  have ec : (articleFrom (tdash ++ (meta ++ (tdash ++ body))) url ch).content
      = (parseFrontmatter (tdash ++ (meta ++ (tdash ++ body)))).content := rfl
  rw [ec, parseFrontmatter_some _ _ _ hb]

/-- C5 witness: a concrete block followed by a body containing a markdown
horizontal rule; the rule stays in the content. -/
theorem c5_witness :
    hasTriple (metaEx ++ ddash) = false ∧
    (articleFrom (tdash ++ (metaEx ++ (tdash ++ bodyEx))) urlEx none).content
      = "Intro.\n\n---\n\nAfter the rule.".toList :=
  ⟨by decide,
   (c5_content_strips_block metaEx bodyEx urlEx none (by decide)).trans (by decide)⟩

/-- C6 counterexample: a blockless response whose first heading is level 2
(`## Second Level Heading`) does not get that heading as title — the heading
regex only accepts level 1, so the URL-derived title is used instead. -/
theorem c6_counterexample :
    (articleFrom text6 urlEx none).title = "Report from example.com".toList ∧
    (articleFrom text6 urlEx none).title ≠ "Second Level Heading".toList := by
  refine ⟨by decide, by decide⟩

/-- C6 amended: for blockless responses the title falls back in priority
order to: the first markdown heading of level 1 only (a `##` line is not
recognized); else the URL-derived `Report from <host>` title; else the fixed
literal `Extracted Article` when the URL cannot be parsed. -/
theorem c6_amended (text url : List Char) (ch : Option (List GroundingChunk))
    (h0 : matchTripleBlock text = none) :
    (∀ v, h1Scan text = some v →
      (articleFrom text url ch).title = sanitizeTitle (jsTrim v)) ∧
    (h1Scan text = none → ∀ host, urlHostname url = some host →
      (articleFrom text url ch).title
        = sanitizeTitle (("Report from ".toList) ++ removeFirst ("www.".toList) host)) ∧
    (h1Scan text = none → urlHostname url = none →
      (articleFrom text url ch).title = "Extracted Article".toList) := by
  refine ⟨?_, ?_, ?_⟩
  · intro v hv
    rw [articleFrom_title, parseFrontmatter_none text h0]
    dsimp only
    rw [deriveTitle_empty_h1 text url v hv]
  · intro hn host hh
    rw [articleFrom_title, parseFrontmatter_none text h0]
    dsimp only
    rw [deriveTitle_empty_url text url host hn hh]
  · intro hn hh
    rw [articleFrom_title, parseFrontmatter_none text h0]
    dsimp only
    rw [deriveTitle_empty_fixed text url hn hh]
    decide

/-- C6 witness: a blockless response with a level-1 heading takes that
heading as title. -/
theorem c6_amended_witness :
    matchTripleBlock text6b = none ∧
    h1Scan text6b = some ("Proper Top Heading".toList) ∧
    (articleFrom text6b urlEx none).title = "Proper Top Heading".toList :=
  ⟨by decide, by decide,
   ((c6_amended text6b urlEx none (by decide)).1 ("Proper Top Heading".toList)
     (by decide)).trans (by decide)⟩

/-- C7 counterexample: a grounding chunk whose web payload has an empty
title and an empty uri is still included in the returned sources — entries
are not filtered by non-emptiness of title or uri. -/
theorem c7_counterexample :
    (articleFrom plainTextEx urlEx (some [⟨some ⟨[], []⟩⟩])).sources = [⟨[], []⟩] := by
  decide

/-- C7 amended: each entry of the returned sources list is a title/uri pair
taken verbatim from a citation's web payload (even when empty); a citation
is included exactly when it carries a web payload, citations without one are
dropped, and the input order is preserved. -/
theorem c7_amended (xs ys : List GroundingChunk) (w : WebPayload) :
    extractSources (some (xs ++ ⟨none⟩ :: ys)) = extractSources (some (xs ++ ys)) ∧
    extractSources (some (xs ++ ⟨some w⟩ :: ys))
      = extractSources (some xs) ++ ⟨w.title, w.uri⟩ :: extractSources (some ys) := by
  unfold extractSources
  constructor <;> simp [List.filterMap_append, List.filterMap_cons]

/-- C8 counterexample: parsing the claim's exact round-trip text does not
yield title `Foo`: the 3-character title fails the minimum-length check
(`title.length < 5`) and is replaced by the URL-derived fallback. -/
theorem c8_counterexample :
    (articleFrom text8 urlEx none).title ≠ "Foo".toList ∧
    (articleFrom text8 urlEx none).title = "Report from example.com".toList := by
  refine ⟨by decide, by decide⟩

/-- C8 amended: on the claim's round-trip text, author, siteName and content
round-trip exactly (`Bar`, `Baz`, `Body text here`), but the title `Foo` is
shorter than the 5-character minimum and is replaced by the URL-derived
fallback; with a title of length at least 5 (`Foobar`) the full round-trip
holds. -/
theorem c8_amended :
    (articleFrom text8 urlEx none).author = "Bar".toList ∧
    (articleFrom text8 urlEx none).siteName = "Baz".toList ∧
    (articleFrom text8 urlEx none).content = "Body text here".toList ∧
    (articleFrom text8 urlEx none).title = "Report from example.com".toList ∧
    (articleFrom text8b urlEx none).title = "Foobar".toList ∧
    (articleFrom text8b urlEx none).author = "Bar".toList ∧
    (articleFrom text8b urlEx none).siteName = "Baz".toList ∧
    (articleFrom text8b urlEx none).content = "Body text here".toList := by
  refine ⟨by decide, by decide, by decide, by decide, by decide, by decide, by decide,
    by decide⟩

/-- C9: `askQuestionAboutArticle` never throws: for every article content,
question and platform behaviour it resolves to a string, which is either the
fixed error fallback, the fixed no-response fallback, or the model's
non-empty response text; and under any invocation error it resolves to the
fixed fallback `Error querying article.`. -/
theorem c9_ask_never_throws (oracle : CallSpec → CallResult) (a q : List Char) :
    (askQuestionAboutArticle oracle a q = ("Error querying article.").toList ∨
     askQuestionAboutArticle oracle a q = ("No response generated.").toList ∨
     ∃ r, oracle ⟨askModelId, askPrompt a q⟩ = .ok r ∧
       askQuestionAboutArticle oracle a q = r.text ∧ r.text ≠ []) ∧
    (∀ m, oracle ⟨askModelId, askPrompt a q⟩ = .err m →
      askQuestionAboutArticle oracle a q = ("Error querying article.").toList) := by
  unfold askQuestionAboutArticle
  cases h : oracle ⟨askModelId, askPrompt a q⟩ with
  | ok r =>
    refine ⟨?_, ?_⟩
    · cases he : r.text.isEmpty with
      | true => right; left; simp [he]
      | false =>
        right; right
        exact ⟨r, rfl, by simp [he], by simpa using he⟩
    · intro m hm
      exact CallResult.noConfusion hm
  | err m => exact ⟨Or.inl rfl, fun _ _ => rfl⟩

/-- C9 witness: the error case at a concrete oracle. -/
theorem c9_witness :
    askQuestionAboutArticle oracleFail ("The article text.".toList)
      ("What is it about?".toList) = ("Error querying article.").toList :=
  (c9_ask_never_throws oracleFail ("The article text.".toList)
    ("What is it about?".toList)).2 ("Primary model unavailable".toList) rfl

/-- C10: when delimiter-free text precedes the first `---`, the parser still
treats the segment between the first and second delimiter as the metadata
block: the whole parse result is identical to parsing without the preceding
text, and that text ends up neither in the content (which is the trimmed
body) nor in any metadata field — it is silently discarded, because the
block match is not anchored to the start of the text. -/
theorem c10_leading_text_discarded (pre meta body url : List Char)
    (ch : Option (List GroundingChunk))
    (hp : hasTriple (pre ++ ddash) = false)
    (hm : hasTriple (meta ++ ddash) = false) :
    articleFrom (pre ++ (tdash ++ (meta ++ (tdash ++ body)))) url ch
      = articleFrom (tdash ++ (meta ++ (tdash ++ body))) url ch ∧
    (articleFrom (pre ++ (tdash ++ (meta ++ (tdash ++ body)))) url ch).content
      = jsTrim body := by
  have h1 := matchTripleBlock_exact pre meta body hp hm
  have h2 : matchTripleBlock (tdash ++ (meta ++ (tdash ++ body))) = some (meta, body) := by
    simpa using matchTripleBlock_exact [] meta body (by decide) hm
  constructor
  · unfold articleFrom
    rw [parseFrontmatter_some _ _ _ h1, parseFrontmatter_some _ _ _ h2]
  · have ec : (articleFrom (pre ++ (tdash ++ (meta ++ (tdash ++ body)))) url ch).content
        = (parseFrontmatter (pre ++ (tdash ++ (meta ++ (tdash ++ body))))).content := rfl
    rw [ec, parseFrontmatter_some _ _ _ h1]

/-- C10 witness: a concrete conversational preamble before the block is
discarded without affecting any field. -/
theorem c10_witness :
    hasTriple (preEx ++ ddash) = false ∧
    hasTriple (metaEx10 ++ ddash) = false ∧
    articleFrom (preEx ++ (tdash ++ (metaEx10 ++ (tdash ++ bodyEx10)))) urlEx none
      = articleFrom (tdash ++ (metaEx10 ++ (tdash ++ bodyEx10))) urlEx none ∧
    (articleFrom (preEx ++ (tdash ++ (metaEx10 ++ (tdash ++ bodyEx10)))) urlEx none).content
      = "The body of the prefixed case.".toList :=
  ⟨by decide, by decide,
   (c10_leading_text_discarded preEx metaEx10 bodyEx10 urlEx none
     (by decide) (by decide)).1,
   ((c10_leading_text_discarded preEx metaEx10 bodyEx10 urlEx none
     (by decide) (by decide)).2).trans (by decide)⟩

end ClearView
